import Mathlib

/-!
Shallow embedding of the natural-language-to-SQL pipeline of this
repository (`app.py`) and of the data-fetch helper (`data_fetch.py`).

Strings are modelled as `List Char` (ASCII character classes model the
Python `re` classes `\w` and `\s` and `str.strip`/`str.lower`, which is
faithful for the ASCII schemas, queries and completions the claims are
about).  The two external ports (the OpenAI chat client and the
SQLDatabase handle) are modelled as function-valued parameters returning
`Except`, an `error` value standing for a raised Python exception.
-/

set_option maxRecDepth 100000

namespace ChatData

/-- The apostrophe character (spelled via its code point). -/
def apos : Char := Char.ofNat 39

/-- The backtick character (spelled via its code point). -/
def btick : Char := Char.ofNat 96

/-- Python `\s` / `str.strip` whitespace, ASCII fragment:
space, tab, newline, carriage return, vertical tab, form feed. -/
def pySpace (c : Char) : Bool :=
  c == ' ' || c == '\t' || c == '\n' || c == '\x0d' ||
  c == Char.ofNat 11 || c == Char.ofNat 12

/-- Python `\w` word character, ASCII fragment. -/
def isWordChar (c : Char) : Bool :=
  c.isAlpha || c.isDigit || c == '_'

/-- Removal of trailing `pySpace` characters (the right half of Python
`str.strip()`). -/
def rstrip (cs : List Char) : List Char :=
  (cs.reverse.dropWhile pySpace).reverse

/-- Python `str.strip()` on the ASCII fragment: drop leading and trailing
whitespace. -/
def pyStrip (cs : List Char) : List Char :=
  rstrip (cs.dropWhile pySpace)

/-- Case-insensitive SQL-marker test on three characters, the character
class of the regex `SQL` with `re.IGNORECASE`. -/
def sqlCI (c1 c2 c3 : Char) : Bool :=
  (c1 == 'S' || c1 == 's') && ((c2 == 'Q' || c2 == 'q') && (c3 == 'L' || c3 == 'l'))

/-- Whether the string begins with a case-insensitive `SQL` marker. -/
def startsWithSqlCI : List Char → Bool
  | c1 :: c2 :: c3 :: _ => sqlCI c1 c2 c3
  | _ => false

/-- One application of the regex substitution of the pattern
"^(SQL:?\s*)?" by the empty string with re.IGNORECASE:
if the string starts with case-insensitive `SQL`, drop it, then drop one
optional colon and the following greedy whitespace run; otherwise the
optional group matches empty and nothing is removed. -/
def stripPrefixSQL : List Char → List Char
  | c1 :: c2 :: c3 :: rest =>
    if sqlCI c1 c2 c3 then
      match rest with
      | ':' :: rest2 => rest2.dropWhile pySpace
      | _ => rest.dropWhile pySpace
    else c1 :: c2 :: c3 :: rest
  | cs => cs

/-- `clean_sql_query` from `app.py`:
substitute the pattern "^(SQL:?\s*)?" by the empty string with re.IGNORECASE, then strip. -/
def clean_sql_query (query : List Char) : List Char :=
  pyStrip (stripPrefixSQL query)

/-- Whether the string begins with a three-backtick code fence. -/
def beginsWithFence (cs : List Char) : Bool :=
  cs.take 3 == [btick, btick, btick]

/-- Python substring containment `needle in hay` on the ASCII model. -/
def containsSub (needle hay : List Char) : Bool :=
  needle.isPrefixOf hay ||
    match hay with
    | [] => false
    | _ :: t => containsSub needle t

/-- Python `str.lower()` on the ASCII fragment. -/
def pyLower (cs : List Char) : List Char := cs.map Char.toLower

/-- The literal `CREATE TABLE ` preceding the captured `(\w+)` group of
the table-name regex in `get_table_and_columns`. -/
def createTableLit : List Char := "CREATE TABLE ".toList

/-- One attempted match of `CREATE TABLE (\w+)` at the head of the string:
on success, the captured name (the maximal word-character run, nonempty)
and the remainder of the string after the whole match. -/
def matchCreateTable (cs : List Char) : Option (List Char × List Char) :=
  if createTableLit.isPrefixOf cs then
    let rest := cs.drop createTableLit.length
    let name := rest.takeWhile isWordChar
    if name = [] then none else some (name, rest.drop name.length)
  else none

/-- Fuelled scan implementing re.findall of "CREATE TABLE (\w+)" over the schema:
left-to-right, non-overlapping; scanning resumes after each whole match. -/
def findTablesFuel : Nat → List Char → List (List Char)
  | 0, _ => []
  | _ + 1, [] => []
  | n + 1, c :: rest =>
    match matchCreateTable (c :: rest) with
    | some (name, after) => name :: findTablesFuel n after
    | none => findTablesFuel n rest

/-- The re.findall of "CREATE TABLE (\w+)" over the schema: since every step consumes
at least one character, `cs.length` fuel always suffices. -/
def findTables (cs : List Char) : List (List Char) :=
  findTablesFuel cs.length cs

/-- The key function of the `max` call in `get_table_and_columns`:
the sum, over the words of the table name split on underscores, of whether the lowered word occurs in the lowered user query. -/
def score (user_query table : List Char) : Nat :=
  ((table.splitOn '_').map
    (fun word => if containsSub (pyLower word) (pyLower user_query) then 1 else 0)).sum

/-- Left fold of Python `max(..., key=f)`: the current best is replaced
only on a strictly greater key, so ties keep the earliest element. -/
def pyMaxByGo (f : List Char → Nat) (best : List Char) : List (List Char) → List Char
  | [] => best
  | y :: ys => pyMaxByGo f (if f y > f best then y else best) ys

/-- Python `max(iterable, key=f, default=None)`. -/
def pyMaxBy (f : List Char → Nat) : List (List Char) → Option (List Char)
  | [] => none
  | x :: xs => some (pyMaxByGo f x xs)

/-- The lazy group of `CREATE TABLE {t} \((.*?)\);` with `re.DOTALL`:
characters up to the first following `);`, or `none` when no `);`
follows. -/
def takeUntilCloseSemi : List Char → Option (List Char)
  | [] => none
  | c :: rest =>
    if [')', ';'].isPrefixOf (c :: rest) then some []
    else
      match takeUntilCloseSemi rest with
      | none => none
      | some tail => some (c :: tail)

/-- Leftmost search for the literal `pfx` followed by a lazily captured
block ending at the first `);` (the `re.search` in
`get_table_and_columns`; since a missing `);` after an earlier prefix
occurrence also dooms every later occurrence, stopping at the first
prefix occurrence is equivalent to full backtracking search). -/
def searchBlock (pfx : List Char) : List Char → Option (List Char)
  | [] => if pfx.isPrefixOf ([] : List Char) then takeUntilCloseSemi [] else none
  | c :: rest =>
    if pfx.isPrefixOf (c :: rest) then takeUntilCloseSemi ((c :: rest).drop pfx.length)
    else searchBlock pfx rest

/-- The re.search of "CREATE TABLE ", the table name, " \(", a lazy group and "\);" over the schema with re.DOTALL,
returning the captured group. -/
def searchTableBlock (table schema : List Char) : Option (List Char) :=
  searchBlock (createTableLit ++ table ++ " (".toList) schema

/-- One attempted match of `(\w+)\s+\w+` at the head of the string: a
nonempty word run, a nonempty whitespace run, a second nonempty word run;
returns the first run and the remainder after the whole match. -/
def matchColumn (cs : List Char) : Option (List Char × List Char) :=
  let w1 := cs.takeWhile isWordChar
  if w1 = [] then none
  else
    let r1 := cs.drop w1.length
    let sp := r1.takeWhile pySpace
    if sp = [] then none
    else
      let r2 := r1.drop sp.length
      let w2 := r2.takeWhile isWordChar
      if w2 = [] then none else some (w1, r2.drop w2.length)

/-- Fuelled scan implementing re.findall of "(\w+)\s+\w+" over the block. -/
def findColumnsFuel : Nat → List Char → List (List Char)
  | 0, _ => []
  | _ + 1, [] => []
  | n + 1, c :: rest =>
    match matchColumn (c :: rest) with
    | some (w1, after) => w1 :: findColumnsFuel n after
    | none => findColumnsFuel n rest

/-- The re.findall of "(\w+)\s+\w+" over the captured column block. -/
def findColumns (cs : List Char) : List (List Char) :=
  findColumnsFuel cs.length cs

/-- The `SQLDatabase` collaborator: `get_table_info()` modelled as a
string field, `run(sql)` as a function whose `error` result stands for a
raised driver exception. -/
structure SQLDatabase where
  table_info : List Char
  run : List Char → Except (List Char) (List Char)

/-- The OpenAI chat-completion port: system message and user message to
either a completion or a raised exception.  Both `create` calls of
`app.py` go through this single client. -/
abbrev Client := List Char → List Char → Except (List Char) (List Char)

/-- System message of the SQL-synthesis call. -/
def sysSqlGen : List Char := "You are a SQL query generator.".toList

/-- System message of the answer-synthesis call. -/
def sysAnalyst : List Char := "You are a helpful data analyst.".toList

/-- `chat_history[-3:] if len(chat_history) > 3 else chat_history`. -/
def lastThree (hist : List (List Char)) : List (List Char) :=
  if hist.length > 3 then hist.drop (hist.length - 3) else hist

/-- Rendering of a Python list of messages inside an f-string, modelled
as the bracketed comma-joined turn texts (the `repr` of the message
objects is abstracted to the turn text itself). -/
def renderList (xs : List (List Char)) : List Char :=
  '[' :: List.intercalate ", ".toList xs ++ [']']

/-- The SQL-synthesis prompt f-string of `get_sql_query` (lines 68-75 of
`app.py`), with the table name, comma-joined columns, user question and
sliced chat history interpolated. -/
def sqlPrompt (table : List Char) (columns : List (List Char))
    (user_query : List Char) (chat_history : List (List Char)) : List Char :=
  "\n    Based on the table ".toList ++ [apos] ++ table ++ [apos] ++
  " with columns ".toList ++ List.intercalate ", ".toList columns ++
  ",\n    generate a SQL query to answer: \"".toList ++ user_query ++
  "\"\n    Recent chat history: ".toList ++ renderList (lastThree chat_history) ++
  "\n    If the question has the word \"latest\" in it, the column name is \"transaction_date\"\n    and if asked about the word \"order\" then the table is \"purchase_order\".\n    Respond with only the SQL query, nothing else.\n    ".toList

/-- The answer-synthesis prompt f-string of `get_response` (lines 100-106
of `app.py`): it interpolates only the question, the SQL text and the
result text. -/
def answerPrompt (user_query sql_query result : List Char) : List Char :=
  "\n        For the question: \"".toList ++ user_query ++
  "\"\n        The SQL query: ".toList ++ sql_query ++
  "\n        Returned this result: ".toList ++ result ++
  "\n\n        Provide a clear and concise answer to the user".toList ++ [apos] ++
  "s question.\n        ".toList

/-- The message returned when no SQL statement was produced. -/
def couldNotGenMsg : List Char :=
  "I".toList ++ [apos] ++ "m sorry, I couldn".toList ++ [apos] ++
  "t generate a SQL query for your question.".toList

/-- The generic apology returned by the `except` branch of `get_response`. -/
def errorMsg : List Char :=
  "I".toList ++ [apos] ++
  "m sorry, I encountered an error while processing your request.".toList

/-- `get_table_and_columns(db, user_query)` from `app.py`:
extract table names, pick the keyword-wise most relevant one (Python
`max` with `default=None`), then extract its column names. -/
def get_table_and_columns (db : SQLDatabase) (user_query : List Char) :
    Option (List Char) × List (List Char) :=
  match pyMaxBy (score user_query) (findTables db.table_info) with
  | none => (none, [])
  | some relevant_table =>
    if relevant_table = [] then (none, [])
    else
      match searchTableBlock relevant_table db.table_info with
      | some inner => (some relevant_table, findColumns inner)
      | none => (some relevant_table, [])

/-- `get_sql_query(db, user_query, chat_history)` from `app.py`: select
the relevant table, build the prompt, call the completion port (its own
`try` turns a raised exception into `None`), and clean the completion. -/
def get_sql_query (client : Client) (db : SQLDatabase)
    (user_query : List Char) (chat_history : List (List Char)) : Option (List Char) :=
  match get_table_and_columns db user_query with
  | (none, _) => none
  | (some table, columns) =>
    if table = [] then none
    else
      match client sysSqlGen (sqlPrompt table columns user_query chat_history) with
      | Except.ok content => some (clean_sql_query content)
      | Except.error _ => none

/-- `get_response(user_query, db, chat_history)` from `app.py`,
instrumented with two flags recording whether `db.run` was invoked and
whether the answer-synthesis completion call was invoked.  The `except`
branch of the source maps every raised port exception to `errorMsg`. -/
def get_response_trace (client : Client) (db : SQLDatabase)
    (user_query : List Char) (chat_history : List (List Char)) :
    List Char × Bool × Bool :=
  match get_sql_query client db user_query chat_history with
  | none => (couldNotGenMsg, false, false)
  | some sql_query =>
    if sql_query = [] then (couldNotGenMsg, false, false)
    else
      match db.run sql_query with
      | Except.error _ => (errorMsg, true, false)
      | Except.ok result =>
        match client sysAnalyst (answerPrompt user_query sql_query result) with
        | Except.error _ => (errorMsg, true, true)
        | Except.ok content => (pyStrip content, true, true)

/-- The answer string of `get_response`. -/
def get_response (client : Client) (db : SQLDatabase)
    (user_query : List Char) (chat_history : List (List Char)) : List Char :=
  (get_response_trace client db user_query chat_history).1

/-- A raised Python exception as seen by `fetch_all_data`: the optional
`response.status_code` attribute chain and an identity tag showing that
re-raising preserves the object. -/
structure PyException where
  response : Option Nat
  tag : Nat
deriving DecidableEq

/-- `pd.DataFrame(items)`, modelled as a wrapper around the item list. -/
structure DataFrame where
  rows : List Nat
deriving DecidableEq

/-- `fetch_all_data(doctype)` from `data_fetch.py`, with the
`client.get_list` call modelled as an `Except` argument: on success wrap
the items in a DataFrame; on an exception whose response has status code
400, return `None` (the printing side effect is not modelled); otherwise
re-raise the same exception. -/
def fetch_all_data (get_list : Except PyException (List Nat)) :
    Except PyException (Option DataFrame) :=
  match get_list with
  | Except.ok items => Except.ok (some ⟨items⟩)
  | Except.error e =>
    if e.response = some 400 then Except.ok none else Except.error e

/-! ### Concrete fixtures used to instantiate the theorems -/

/-- A concrete schema string with one table. -/
def schema0 : List Char := "CREATE TABLE orders (id INT, total INT);".toList

/-- A concrete user question. -/
def q0 : List Char := "show orders".toList

/-- A concrete raw completion of the SQL-synthesis call. -/
def okComp : List Char := "SELECT id FROM orders".toList

/-- A concrete successful query-result text. -/
def res0 : List Char := "[(1, 10)]".toList

/-- A concrete conversation turn. -/
def hist0 : List Char := "previous turn about hzt9".toList

/-- A client whose completion is always `okComp`. -/
def clientOk : Client := fun _ _ => Except.ok okComp

/-- A client that always raises (e.g. a timeout). -/
def clientErr : Client := fun _ _ => Except.error "timeout".toList

/-- A client answering the synthesis call with `okComp` and echoing the
prompt back on the answer call. -/
def clientEcho : Client := fun sys user =>
  if sys == sysSqlGen then Except.ok okComp else Except.ok user

/-- A database handle whose driver raises on every statement. -/
def dbErr : SQLDatabase :=
  { table_info := schema0, run := fun _ => Except.error "syntax error near xq7zz".toList }

/-- A database handle whose driver succeeds with `res0`. -/
def dbOk : SQLDatabase :=
  { table_info := schema0, run := fun _ => Except.ok res0 }

/-- A client returning a fence-wrapped completion. -/
def clientFence : Client := fun _ _ => Except.ok "```sql\nSELECT 1;\n```".toList

/-- A client returning a completion that repeats the SQL marker. -/
def clientRepeat : Client := fun _ _ => Except.ok "SQL SQL SELECT 1".toList

/-- A database handle over a two-table schema. -/
def dbTwo : SQLDatabase :=
  { table_info := "CREATE TABLE aaa (x INT); CREATE TABLE bbb (y INT);".toList,
    run := fun _ => Except.error [] }

/-! ### Helper lemmas on the string utilities -/

theorem dropWhile_twice (p : Char → Bool) (l : List Char) :
    (l.dropWhile p).dropWhile p = l.dropWhile p := by
  induction l with
  | nil => rfl
  | cons a l ih =>
    cases hp : p a with
    | false => simp [List.dropWhile_cons, hp]
    | true => simp [List.dropWhile_cons, hp, ih]

theorem length_dropWhile_le (p : Char → Bool) (l : List Char) :
    (l.dropWhile p).length ≤ l.length := by
  induction l with
  | nil => exact Nat.le_refl _
  | cons a l ih =>
    cases hp : p a with
    | false => simp [List.dropWhile_cons, hp]
    | true =>
      simp only [List.dropWhile_cons, hp, if_pos]
      exact Nat.le_trans ih (Nat.le_succ _)

theorem exists_append_dropWhile (p : Char → Bool) (l : List Char) :
    ∃ t, l = t ++ l.dropWhile p := by
  induction l with
  | nil => exact ⟨[], rfl⟩
  | cons a l ih =>
    cases hp : p a with
    | false => exact ⟨[], by simp [List.dropWhile_cons, hp]⟩
    | true =>
      obtain ⟨t, ht⟩ := ih
      exact ⟨a :: t, by simp [List.dropWhile_cons, hp]; exact ht⟩

theorem dropWhile_eq_self_append (p : Char → Bool) (y s : List Char)
    (h : (y ++ s).dropWhile p = y ++ s) : y.dropWhile p = y := by
  cases y with
  | nil => rfl
  | cons a y' =>
    cases hp : p a with
    | false => simp [List.dropWhile_cons, hp]
    | true =>
      exfalso
      rw [List.cons_append, List.dropWhile_cons, if_pos hp] at h
      have hlen := length_dropWhile_le p (y' ++ s)
      rw [h] at hlen
      simp at hlen

theorem exists_append_rstrip (x : List Char) : ∃ t, x = rstrip x ++ t := by
  obtain ⟨u, hu⟩ := exists_append_dropWhile pySpace x.reverse
  refine ⟨u.reverse, ?_⟩
  have : x.reverse.reverse = (u ++ x.reverse.dropWhile pySpace).reverse := by rw [← hu]
  rw [List.reverse_reverse, List.reverse_append] at this
  exact this

theorem dropWhile_rstrip (x : List Char) (hx : x.dropWhile pySpace = x) :
    (rstrip x).dropWhile pySpace = rstrip x := by
  obtain ⟨t, ht⟩ := exists_append_rstrip x
  refine dropWhile_eq_self_append pySpace (rstrip x) t ?_
  rw [← ht]
  exact hx

theorem rstrip_rstrip (x : List Char) : rstrip (rstrip x) = rstrip x := by
  unfold rstrip
  rw [List.reverse_reverse, dropWhile_twice]

theorem pyStrip_idem (x : List Char) : pyStrip (pyStrip x) = pyStrip x := by
  unfold pyStrip
  rw [dropWhile_rstrip _ (dropWhile_twice _ _), rstrip_rstrip]

theorem pyStrip_dropWhile (x : List Char) :
    pyStrip (x.dropWhile pySpace) = pyStrip x := by
  unfold pyStrip
  rw [dropWhile_twice]

theorem stripPrefixSQL_eq_self (cs : List Char)
    (h : startsWithSqlCI cs = false) : stripPrefixSQL cs = cs := by
  match cs with
  | [] => rfl
  | [c1] => rfl
  | [c1, c2] => rfl
  | c1 :: c2 :: c3 :: rest =>
    have hc : sqlCI c1 c2 c3 = false := h
    simp [stripPrefixSQL, hc]

theorem isPrefixOf_append_self (x y : List Char) :
    x.isPrefixOf (x ++ y) = true := by
  induction x with
  | nil => simp [List.isPrefixOf]
  | cons a x ih => simp [List.isPrefixOf, ih]

theorem containsSub_append_middle (x : List Char) (pre post : List Char) :
    containsSub x (pre ++ (x ++ post)) = true := by
  induction pre with
  | nil =>
    rw [List.nil_append, containsSub.eq_def, isPrefixOf_append_self]
    exact Bool.true_or _
  | cons a pre ih =>
    rw [List.cons_append, containsSub.eq_def]
    simp only [ih]
    exact Bool.or_true _

theorem matchCreateTable_name_ne_nil {cs name after : List Char}
    (h : matchCreateTable cs = some (name, after)) : name ≠ [] := by
  unfold matchCreateTable at h
  split at h
  · dsimp only at h
    split at h
    · exact absurd h (by simp)
    · rename_i hne
      simp only [Option.some.injEq, Prod.mk.injEq] at h
      exact fun hnil => hne (h.1.symm ▸ hnil)
  · exact absurd h (by simp)

theorem findTablesFuel_mem_ne_nil :
    ∀ (n : Nat) (cs t : List Char), t ∈ findTablesFuel n cs → t ≠ [] := by
  intro n
  induction n with
  | zero => intro cs t h; exact absurd h (by simp [findTablesFuel])
  | succ n ih =>
    intro cs t h
    match cs with
    | [] => exact absurd h (by simp [findTablesFuel])
    | c :: rest =>
      rw [findTablesFuel] at h
      split at h
      · rename_i name after hm
        rcases List.mem_cons.mp h with h1 | h1
        · exact h1 ▸ matchCreateTable_name_ne_nil hm
        · exact ih after t h1
      · exact ih rest t h

theorem findTables_mem_ne_nil {cs t : List Char}
    (h : t ∈ findTables cs) : t ≠ [] :=
  findTablesFuel_mem_ne_nil cs.length cs t h

theorem pyMaxByGo_mem (f : List Char → Nat) (b : List Char) (l : List (List Char)) :
    pyMaxByGo f b l ∈ b :: l := by
  induction l generalizing b with
  | nil => simp [pyMaxByGo]
  | cons y ys ih =>
    by_cases hc : f y > f b
    · rw [pyMaxByGo, if_pos hc]
      exact List.mem_cons_of_mem b (ih y)
    · rw [pyMaxByGo, if_neg hc]
      rcases List.mem_cons.mp (ih b) with h | h
      · rw [h]
        exact List.mem_cons_self _ _
      · exact List.mem_cons_of_mem _ (List.mem_cons_of_mem _ h)

theorem pyMaxByGo_all_zero (f : List Char → Nat) (b : List Char)
    (l : List (List Char)) (hb : f b = 0) (hl : ∀ y ∈ l, f y = 0) :
    pyMaxByGo f b l = b := by
  induction l with
  | nil => rfl
  | cons y ys ih =>
    rw [pyMaxByGo]
    have hy : f y = 0 := hl y (List.mem_cons_self y ys)
    have : ¬ f y > f b := by rw [hy, hb]; exact Nat.lt_irrefl 0
    rw [if_neg this]
    exact ih (fun z hz => hl z (List.mem_cons_of_mem y hz))

theorem gtac_of_findTables_nil (db : SQLDatabase) (q : List Char)
    (h : findTables db.table_info = []) :
    get_table_and_columns db q = (none, []) := by
  unfold get_table_and_columns
  rw [h]
  rfl

theorem gtac_of_findTables_cons (db : SQLDatabase) (q : List Char)
    (x : List Char) (xs : List (List Char))
    (h : findTables db.table_info = x :: xs) :
    (get_table_and_columns db q).1 = some (pyMaxByGo (score q) x xs) ∧
    pyMaxByGo (score q) x xs ∈ x :: xs ∧ pyMaxByGo (score q) x xs ≠ [] := by
  have hmem : pyMaxByGo (score q) x xs ∈ x :: xs := pyMaxByGo_mem _ _ _
  have hne : pyMaxByGo (score q) x xs ≠ [] :=
    findTables_mem_ne_nil (h ▸ hmem)
  refine ⟨?_, hmem, hne⟩
  unfold get_table_and_columns
  rw [h]
  simp only [pyMaxBy, if_neg hne]
  split
  · rfl
  · rfl

theorem gtac_table_info_congr (db1 db2 : SQLDatabase) (q : List Char)
    (h : db1.table_info = db2.table_info) :
    get_table_and_columns db1 q = get_table_and_columns db2 q := by
  unfold get_table_and_columns
  rw [h]

/-- Shared helper: when the synthesized statement is nonempty and the
driver raises on it, the traced orchestration returns the generic apology
having invoked `db.run` but not the answer-synthesis completion call. -/
theorem exec_error_trace (client : Client) (db : SQLDatabase)
    (q : List Char) (hist : List (List Char)) (sql e : List Char)
    (hsql : get_sql_query client db q hist = some sql)
    (hne : sql ≠ [])
    (hrun : db.run sql = Except.error e) :
    get_response_trace client db q hist = (errorMsg, true, false) := by
  unfold get_response_trace
  rw [hsql]
  simp only [if_neg hne, hrun]

/-- Shared helper: `containsSub` is preserved by prepending to the
haystack. -/
theorem containsSub_append_left (x pre hay : List Char)
    (h : containsSub x hay = true) : containsSub x (pre ++ hay) = true := by
  induction pre with
  | nil => exact h
  | cons a pre ih =>
    rw [List.cons_append, containsSub.eq_def]
    simp only [ih]
    exact Bool.or_true _

/-- Shared helper: a list occurs in itself followed by anything. -/
theorem containsSub_self_append (x post : List Char) :
    containsSub x (x ++ post) = true := by
  rw [containsSub.eq_def, isPrefixOf_append_self]
  exact Bool.true_or _

/-! ### Claim theorems -/

/-- Claim C1, counterexample: `clean_sql_query` is not idempotent (cleaning
`SQL SQL SELECT 1` once leaves `SQL SELECT 1`, cleaning again strips more),
and it does not strip a leading `SQL Query:` token (only the `SQL` part
with the following space is removed). -/
theorem c1_counterexample :
    clean_sql_query (clean_sql_query "SQL SQL SELECT 1".toList) ≠
      clean_sql_query "SQL SQL SELECT 1".toList ∧
    clean_sql_query "SQL Query: SELECT 1".toList = "Query: SELECT 1".toList ∧
    clean_sql_query "SQL Query: SELECT 1".toList ≠ "SELECT 1".toList := by
  refine ⟨by decide, by decide, by decide⟩

/-- Claim C1, amended: `clean_sql_query` strips one leading case-insensitive
`SQL`/`SQL:` marker with the following whitespace plus outer whitespace,
and it is idempotent on every input whose cleaned form does not itself
begin with a case-insensitive `SQL` marker. -/
theorem c1_clean_conditional_idem (cs : List Char)
    (h : startsWithSqlCI (clean_sql_query cs) = false) :
    clean_sql_query (clean_sql_query cs) = clean_sql_query cs := by
  calc clean_sql_query (clean_sql_query cs)
      = pyStrip (stripPrefixSQL (clean_sql_query cs)) := rfl
    _ = pyStrip (clean_sql_query cs) := by rw [stripPrefixSQL_eq_self _ h]
    _ = pyStrip (pyStrip (stripPrefixSQL cs)) := rfl
    _ = pyStrip (stripPrefixSQL cs) := pyStrip_idem _
    _ = clean_sql_query cs := rfl

/-- Claim C1, witness: the conditional idempotence applied to a concrete
completion. -/
theorem c1_witness :
    clean_sql_query (clean_sql_query "sql:  select 1 ".toList) =
      clean_sql_query "sql:  select 1 ".toList :=
  c1_clean_conditional_idem _ (by decide)

/-- Claim C2, counterexample: the statement handed to `db.run` can still be
wrapped in code fences (a fenced completion passes through `clean_sql_query`
unchanged) and can still be prefixed with the literal token `SQL` (a
completion repeating the marker loses only its first copy). -/
theorem c2_counterexample :
    get_sql_query clientFence dbOk q0 [] = some "```sql\nSELECT 1;\n```".toList ∧
    beginsWithFence "```sql\nSELECT 1;\n```".toList = true ∧
    get_sql_query clientRepeat dbOk q0 [] = some "SQL SELECT 1".toList ∧
    "SQL ".toList.isPrefixOf "SQL SELECT 1".toList = true := by
  refine ⟨by decide, by decide, by decide, by decide⟩

/-- Claim C2, amended: `clean_sql_query` removes exactly one leading
case-insensitive `SQL`/`SQL:` marker and outer whitespace, so the invariant
holds whenever the raw completion is such a marker followed by a body whose
stripped form neither begins with a case-insensitive `SQL` marker nor with
a code fence; for such completions the executed statement is the stripped
body. -/
theorem c2_clean_enforces_on_marked_body (body : List Char)
    (h1 : startsWithSqlCI (pyStrip body) = false)
    (h2 : beginsWithFence (pyStrip body) = false) :
    clean_sql_query ('S' :: 'Q' :: 'L' :: ':' :: body) = pyStrip body ∧
    startsWithSqlCI (clean_sql_query ('S' :: 'Q' :: 'L' :: ':' :: body)) = false ∧
    beginsWithFence (clean_sql_query ('S' :: 'Q' :: 'L' :: ':' :: body)) = false := by
  have hmain : clean_sql_query ('S' :: 'Q' :: 'L' :: ':' :: body) = pyStrip body := by
    show pyStrip (stripPrefixSQL ('S' :: 'Q' :: 'L' :: ':' :: body)) = pyStrip body
    have : stripPrefixSQL ('S' :: 'Q' :: 'L' :: ':' :: body) = body.dropWhile pySpace := rfl
    rw [this, pyStrip_dropWhile]
  exact ⟨hmain, hmain ▸ h1, hmain ▸ h2⟩

/-- Claim C2, witness: the amended cleaning guarantee applied to a concrete
marked completion. -/
theorem c2_witness :
    clean_sql_query ('S' :: 'Q' :: 'L' :: ':' :: " select name from t".toList) =
      pyStrip " select name from t".toList :=
  (c2_clean_enforces_on_marked_body " select name from t".toList
    (by decide) (by decide)).1

/-- Claim C3: if the driver raises on the synthesized (nonempty) statement,
`get_response` returns the fallback apology and the answer-synthesis
completion call is never invoked (the trace reaches execution but not
answering). -/
theorem c3_exec_failure_reaches_fallback (client : Client) (db : SQLDatabase)
    (q : List Char) (hist : List (List Char)) (sql e : List Char)
    (hsql : get_sql_query client db q hist = some sql)
    (hne : sql ≠ [])
    (hrun : db.run sql = Except.error e) :
    get_response_trace client db q hist = (errorMsg, true, false) :=
  exec_error_trace client db q hist sql e hsql hne hrun

/-- Claim C3, witness: a concrete failing driver. -/
theorem c3_witness :
    get_response_trace clientOk dbErr q0 [] = (errorMsg, true, false) :=
  c3_exec_failure_reaches_fallback clientOk dbErr q0 [] okComp
    "syntax error near xq7zz".toList (by decide) (by decide) rfl

/-- Claim C4: for every client, database handle, question and history,
`get_response` is total and returns prose: either one of the two canned
messages or the trimmed answer completion; no port exception propagates. -/
theorem c4_always_prose (client : Client) (db : SQLDatabase)
    (q : List Char) (hist : List (List Char)) :
    get_response client db q hist = couldNotGenMsg ∨
    get_response client db q hist = errorMsg ∨
    ∃ content, get_response client db q hist = pyStrip content := by
  unfold get_response get_response_trace
  cases hq : get_sql_query client db q hist with
  | none => exact Or.inl rfl
  | some sql =>
    dsimp only
    by_cases hne : sql = []
    · rw [if_pos hne]
      exact Or.inl rfl
    · rw [if_neg hne]
      cases hr : db.run sql with
      | error e => exact Or.inr (Or.inl rfl)
      | ok result =>
        dsimp only
        cases hc : client sysAnalyst (answerPrompt q sql result) with
        | error e => exact Or.inr (Or.inl rfl)
        | ok content => exact Or.inr (Or.inr ⟨content, rfl⟩)

/-- Claim C5, counterexample: the driver exception message (here marked by
`xq7zz`) is not carried by any value crossing the orchestration boundary;
the caller receives only the generic apology, which does not contain the
message. -/
theorem c5_counterexample :
    get_response clientOk dbErr q0 [] = errorMsg ∧
    containsSub "xq7zz".toList errorMsg = false ∧
    containsSub "xq7zz".toList "syntax error near xq7zz".toList = true := by
  refine ⟨by decide, by decide, by decide⟩

/-- Claim C5, amended: any driver-level exception during execution is
caught at the `get_response` boundary and never re-raised, but it is
converted to the fixed generic apology rather than to a value carrying the
underlying message (the result is the same for every exception message). -/
theorem c5_exec_error_generic_apology (client : Client) (db : SQLDatabase)
    (q : List Char) (hist : List (List Char)) (sql e : List Char)
    (hsql : get_sql_query client db q hist = some sql)
    (hne : sql ≠ [])
    (hrun : db.run sql = Except.error e) :
    get_response client db q hist = errorMsg := by
  unfold get_response
  rw [exec_error_trace client db q hist sql e hsql hne hrun]

/-- Claim C5, witness: the amended conversion applied to a concrete failing
driver. -/
theorem c5_witness : get_response clientOk dbErr q0 [] = errorMsg :=
  c5_exec_error_generic_apology clientOk dbErr q0 [] okComp
    "syntax error near xq7zz".toList (by decide) (by decide) rfl

/-- Claim C6, counterexample: the answer-synthesis prompt built by
`get_response` does not embed the schema and does not embed the
conversation history: for a concrete successful run the prompt (echoed
back by the answer port) contains neither the schema text nor the
history turn. -/
theorem c6_counterexample :
    get_response clientEcho dbOk q0 [hist0] = pyStrip (answerPrompt q0 okComp res0) ∧
    containsSub dbOk.table_info (answerPrompt q0 okComp res0) = false ∧
    containsSub hist0 (answerPrompt q0 okComp res0) = false := by
  refine ⟨by decide, by decide, by decide⟩

/-- Claim C6, amended: on successful execution the answer-synthesis prompt
embeds the question, the SQL text and the result text (but not the schema
or the history), and `get_response` returns the answer completion trimmed
of outer whitespace. -/
theorem c6_answer_prompt_content (client : Client) (db : SQLDatabase)
    (q : List Char) (hist : List (List Char)) (sql res content : List Char)
    (hsql : get_sql_query client db q hist = some sql)
    (hne : sql ≠ [])
    (hrun : db.run sql = Except.ok res)
    (hans : client sysAnalyst (answerPrompt q sql res) = Except.ok content) :
    get_response client db q hist = pyStrip content ∧
    containsSub q (answerPrompt q sql res) = true ∧
    containsSub sql (answerPrompt q sql res) = true ∧
    containsSub res (answerPrompt q sql res) = true := by
  refine ⟨?_, ?_, ?_, ?_⟩
  · unfold get_response get_response_trace
    rw [hsql]
    simp only [if_neg hne, hrun, hans]
  · unfold answerPrompt
    simp only [List.append_assoc]
    exact containsSub_append_left _ _ _ (containsSub_self_append _ _)
  · unfold answerPrompt
    simp only [List.append_assoc]
    exact containsSub_append_left _ _ _ (containsSub_append_left _ _ _
      (containsSub_append_left _ _ _ (containsSub_self_append _ _)))
  · unfold answerPrompt
    simp only [List.append_assoc]
    exact containsSub_append_left _ _ _ (containsSub_append_left _ _ _
      (containsSub_append_left _ _ _ (containsSub_append_left _ _ _
        (containsSub_append_left _ _ _ (containsSub_self_append _ _)))))

/-- Claim C6, witness: the amended prompt-content property at a concrete
successful run. -/
theorem c6_witness :
    get_response clientEcho dbOk q0 [hist0] =
      pyStrip (answerPrompt q0 okComp res0) ∧
    containsSub q0 (answerPrompt q0 okComp res0) = true :=
  ⟨(c6_answer_prompt_content clientEcho dbOk q0 [hist0] okComp res0
      (answerPrompt q0 okComp res0) (by decide) (by decide) rfl rfl).1,
   (c6_answer_prompt_content clientEcho dbOk q0 [hist0] okComp res0
      (answerPrompt q0 okComp res0) (by decide) (by decide) rfl rfl).2.1⟩

/-- Claim C7: a completion-port failure during SQL synthesis makes
`get_sql_query` return no statement, and the caller treats both a missing
statement and an empty cleaned statement as "no statement produced",
returning the could-not-generate message without invoking `db.run` or the
answer call. -/
theorem c7_synthesis_failure (client : Client) (db : SQLDatabase)
    (q : List Char) (hist : List (List Char))
    (hfail : ∀ p, ∃ e, client sysSqlGen p = Except.error e) :
    get_sql_query client db q hist = none ∧
    ∀ (client2 : Client) (db2 : SQLDatabase) (q2 : List Char)
      (hist2 : List (List Char)),
      (get_sql_query client2 db2 q2 hist2 = none ∨
        get_sql_query client2 db2 q2 hist2 = some []) →
      get_response_trace client2 db2 q2 hist2 = (couldNotGenMsg, false, false) := by
  constructor
  · unfold get_sql_query
    cases htc : get_table_and_columns db q with
    | mk fst snd =>
      cases fst with
      | none => rfl
      | some table =>
        dsimp only
        by_cases hne : table = []
        · rw [if_pos hne]
        · rw [if_neg hne]
          obtain ⟨e, he⟩ := hfail (sqlPrompt table snd q hist)
          rw [he]
  · intro client2 db2 q2 hist2 h
    rcases h with h | h
    · unfold get_response_trace
      rw [h]
    · unfold get_response_trace
      rw [h]
      rfl

/-- Claim C7, witness: a concrete always-raising completion port. -/
theorem c7_witness : get_sql_query clientErr dbOk q0 [] = none :=
  (c7_synthesis_failure clientErr dbOk q0 []
    (fun _ => ⟨"timeout".toList, rfl⟩)).1

/-- Claim C8: with the completion port stubbed to a fixed completion the
synthesis path is deterministic in schema, question and history: two runs
against ports agreeing on the stub (and handles agreeing on the schema)
return the same cleaned statement, namely `clean_sql_query` of the stub
whenever the schema has at least one table. -/
theorem c8_synthesis_deterministic (client1 client2 : Client)
    (db1 db2 : SQLDatabase) (q : List Char) (hist : List (List Char))
    (c : List Char)
    (hschema : db1.table_info = db2.table_info)
    (h1 : ∀ p, client1 sysSqlGen p = Except.ok c)
    (h2 : ∀ p, client2 sysSqlGen p = Except.ok c) :
    get_sql_query client1 db1 q hist = get_sql_query client2 db2 q hist ∧
    (findTables db1.table_info ≠ [] →
      get_sql_query client1 db1 q hist = some (clean_sql_query c)) := by
  have hg : get_table_and_columns db1 q = get_table_and_columns db2 q :=
    gtac_table_info_congr db1 db2 q hschema
  constructor
  · unfold get_sql_query
    rw [← hg]
    cases htc : get_table_and_columns db1 q with
    | mk fst snd =>
      cases fst with
      | none => rfl
      | some table =>
        dsimp only
        by_cases hne : table = []
        · rw [if_pos hne, if_pos hne]
        · rw [if_neg hne, if_neg hne, h1, h2]
  · intro htables
    cases ht : findTables db1.table_info with
    | nil => exact absurd ht htables
    | cons x xs =>
      obtain ⟨hfst, hmem, hne⟩ := gtac_of_findTables_cons db1 q x xs ht
      unfold get_sql_query
      cases htc : get_table_and_columns db1 q with
      | mk fst snd =>
        rw [htc] at hfst
        dsimp only at hfst
        rw [hfst]
        dsimp only
        rw [if_neg hne, h1]

/-- Claim C8, witness: two concrete runs against different handles and
clients sharing schema and stub agree and return the cleaned stub. -/
theorem c8_witness :
    get_sql_query clientOk dbOk q0 [] = get_sql_query clientEcho dbErr q0 [] ∧
    get_sql_query clientOk dbOk q0 [] = some (clean_sql_query okComp) :=
  ⟨(c8_synthesis_deterministic clientOk clientEcho dbOk dbErr q0 [] okComp
      rfl (fun _ => rfl) (fun _ => rfl)).1,
   (c8_synthesis_deterministic clientOk clientEcho dbOk dbErr q0 [] okComp
      rfl (fun _ => rfl) (fun _ => rfl)).2 (by decide)⟩

/-- Claim C9: `get_table_and_columns` returns no table exactly when the
schema has no `CREATE TABLE` match, returns `(none, [])` in that case, and
when no table-name word scores (all scores zero) it still selects the
first table in schema order (ties resolve to the earliest). -/
theorem c9_table_selection (db : SQLDatabase) (q : List Char) :
    ((get_table_and_columns db q).1 = none ↔ findTables db.table_info = []) ∧
    (findTables db.table_info = [] → get_table_and_columns db q = (none, [])) ∧
    ((∀ t ∈ findTables db.table_info, score q t = 0) →
      (get_table_and_columns db q).1 = (findTables db.table_info).head?) := by
  cases h : findTables db.table_info with
  | nil =>
    have hg := gtac_of_findTables_nil db q h
    refine ⟨?_, fun _ => hg, fun _ => ?_⟩
    · rw [hg]
      simp
    · rw [hg]
      rfl
  | cons x xs =>
    obtain ⟨hfst, hmem, hne⟩ := gtac_of_findTables_cons db q x xs h
    refine ⟨?_, ?_, ?_⟩
    · rw [hfst]
      simp
    · intro hcontra
      exact absurd hcontra (by simp)
    · intro hz
      rw [hfst, pyMaxByGo_all_zero (score q) x xs
        (hz x (List.mem_cons_self x xs))
        (fun y hy => hz y (List.mem_cons_of_mem x hy))]
      rfl

/-- Claim C9, witness: a two-table schema and a query matching no table
word select the first table. -/
theorem c9_witness :
    (get_table_and_columns dbTwo "zzz".toList).1 =
      (findTables dbTwo.table_info).head? :=
  (c9_table_selection dbTwo "zzz".toList).2.2 (by decide)

/-- Claim C10: `fetch_all_data` returns `None` exactly when the fetch
raises an exception carrying a response with status code 400; every other
exception is re-raised unchanged; on success it returns a DataFrame of the
fetched items. -/
theorem c10_fetch_all_data (g : Except PyException (List Nat)) :
    (fetch_all_data g = Except.ok none ↔
      ∃ e, g = Except.error e ∧ e.response = some 400) ∧
    (∀ e, g = Except.error e → e.response ≠ some 400 →
      fetch_all_data g = Except.error e) ∧
    (∀ items, g = Except.ok items →
      fetch_all_data g = Except.ok (some ⟨items⟩)) := by
  cases g with
  | ok items =>
    refine ⟨?_, ?_, ?_⟩
    · simp [fetch_all_data]
    · intro e he hne
      exact absurd he (by simp)
    · intro its h
      cases h
      rfl
  | error e =>
    by_cases h4 : e.response = some 400
    · refine ⟨?_, ?_, ?_⟩
      · simp [fetch_all_data, h4]
      · intro e2 he hne
        cases he
        exact absurd h4 hne
      · intro its h
        exact absurd h (by simp)
    · refine ⟨?_, ?_, ?_⟩
      · simp [fetch_all_data, h4]
      · intro e2 he hne
        cases he
        simp [fetch_all_data, h4]
      · intro its h
        exact absurd h (by simp)

/-- Claim C10, witness: a concrete 400-status exception yields `None`. -/
theorem c10_witness :
    fetch_all_data (Except.error ⟨some 400, 7⟩) = Except.ok none :=
  (c10_fetch_all_data (Except.error ⟨some 400, 7⟩)).1.mpr ⟨⟨some 400, 7⟩, rfl, rfl⟩

end ChatData
